import Mathlib

/-!
Shallow embedding of `src/utilities/generate_resyne_display_lut.py`.

Python floating-point arithmetic is modelled over the real numbers `ℝ`:
`math.pow` becomes `Real.rpow`, `math.log2` becomes `Real.logb 2`,
`math.sqrt` becomes `Real.sqrt`, the float `%` operator (sign of the
divisor) becomes `pyFmod`, and `int()` truncation toward zero becomes
`pyTrunc`.  Python float division raises `ZeroDivisionError` on a zero
divisor, so it is modelled as `pyDiv : ℝ → ℝ → Option ℝ` where the code
can actually divide by zero; elsewhere division is total real division.
-/

/-- `min(max(x, 0.0), 1.0)` — the clamp idiom used throughout the script. -/
noncomputable def clamp01 (x : ℝ) : ℝ := min (max x 0) 1

/-- Python float `%` for a nonzero divisor: result has the sign of the
divisor; for `y > 0` this is `x - y * ⌊x / y⌋ ∈ [0, y)`. -/
noncomputable def pyFmod (x y : ℝ) : ℝ := x - y * ⌊x / y⌋

/-- Python `int()` on a float: truncation toward zero. -/
noncomputable def pyTrunc (x : ℝ) : ℤ := if 0 ≤ x then ⌊x⌋ else -⌊-x⌋

/-- Python float division, which raises `ZeroDivisionError` on a zero
divisor; modelled as an `Option`. -/
noncomputable def pyDiv (a b : ℝ) : Option ℝ := if b = 0 then none else some (a / b)

/-- `DB_MIN = -120.0` -/
noncomputable def DB_MIN : ℝ := -120

/-- `DB_MAX = 20.0` -/
noncomputable def DB_MAX : ℝ := 20

/-- `DB_RANGE = DB_MAX - DB_MIN` -/
noncomputable def DB_RANGE : ℝ := DB_MAX - DB_MIN

/-- `MIN_FREQ = 20.0` -/
noncomputable def MIN_FREQ : ℝ := 20

/-- `MAX_FREQ = 20000.0` -/
noncomputable def MAX_FREQ : ℝ := 20000

/-- `LOG_FREQ_MIN = math.log2(MIN_FREQ)` -/
noncomputable def LOG_FREQ_MIN : ℝ := Real.logb 2 MIN_FREQ

/-- `LOG_FREQ_RANGE = math.log2(MAX_FREQ) - LOG_FREQ_MIN` -/
noncomputable def LOG_FREQ_RANGE : ℝ := Real.logb 2 MAX_FREQ - LOG_FREQ_MIN

/-- `PHASE_OFFSET = 0.5` -/
noncomputable def PHASE_OFFSET : ℝ := 0.5

/-- `PHASE_SCALE = 0.5` -/
noncomputable def PHASE_SCALE : ℝ := 0.5

/-- `MAX_AMPLITUDE = math.pow(10.0, DB_MAX / 20.0)` -/
noncomputable def MAX_AMPLITUDE : ℝ := (10 : ℝ) ^ (DB_MAX / 20)

/-- `LUT_SIZE = 33` -/
def LUT_SIZE : ℕ := 33

/-- `denormalise_magnitude(value)`: clamp to `[0,1]`, map linearly to
decibels, convert to linear amplitude `10^(db/20)`. -/
noncomputable def denormalise_magnitude (value : ℝ) : ℝ :=
  (10 : ℝ) ^ ((clamp01 value * DB_RANGE + DB_MIN) / 20)

/-- `denormalise_frequency(value)`: clamp to `[0,1]`, map linearly to
log2-frequency, convert back via `2^(log_freq)`. -/
noncomputable def denormalise_frequency (value : ℝ) : ℝ :=
  (2 : ℝ) ^ (LOG_FREQ_MIN + clamp01 value * LOG_FREQ_RANGE)

/-- `decode_cosine_component(encoded)`: clamp to `[0,1]`, invert the affine
phase encoding. -/
noncomputable def decode_cosine_component (encoded : ℝ) : ℝ :=
  (clamp01 encoded - PHASE_OFFSET) / PHASE_SCALE

section ClampLemmas

theorem clamp01_mem (x : ℝ) : clamp01 x ∈ Set.Icc (0 : ℝ) 1 := by
  constructor
  · exact le_min (le_max_right x 0) zero_le_one
  · exact min_le_right _ _

theorem clamp01_nonneg (x : ℝ) : 0 ≤ clamp01 x := (clamp01_mem x).1

theorem clamp01_le_one (x : ℝ) : clamp01 x ≤ 1 := (clamp01_mem x).2

theorem clamp01_of_mem {x : ℝ} (hx : x ∈ Set.Icc (0 : ℝ) 1) : clamp01 x = x := by
  unfold clamp01
  rw [max_eq_left hx.1, min_eq_left hx.2]

theorem clamp01_idem (x : ℝ) : clamp01 (clamp01 x) = clamp01 x :=
  clamp01_of_mem (clamp01_mem x)

theorem clamp01_mono : Monotone clamp01 := fun _ _ h => by
  unfold clamp01
  exact min_le_min (max_le_max h le_rfl) le_rfl

theorem clamp01_zero : clamp01 0 = 0 := clamp01_of_mem (by norm_num)

theorem clamp01_one : clamp01 1 = 1 := clamp01_of_mem (by norm_num)

end ClampLemmas

section MagnitudeLemmas

theorem MAX_AMPLITUDE_eq : MAX_AMPLITUDE = 10 := by
  unfold MAX_AMPLITUDE DB_MAX
  norm_num

theorem denormalise_magnitude_pos (v : ℝ) : 0 < denormalise_magnitude v :=
  Real.rpow_pos_of_pos (by norm_num) _

theorem denormalise_magnitude_zero :
    denormalise_magnitude 0 = (10 : ℝ) ^ ((-120 : ℝ) / 20) := by
  unfold denormalise_magnitude DB_RANGE DB_MAX DB_MIN
  rw [clamp01_zero]
  norm_num

theorem denormalise_magnitude_one : denormalise_magnitude 1 = 10 := by
  unfold denormalise_magnitude DB_RANGE DB_MAX DB_MIN
  rw [clamp01_one]
  norm_num

theorem denormalise_magnitude_mono : Monotone denormalise_magnitude := by
  intro a b hab
  unfold denormalise_magnitude
  apply Real.rpow_le_rpow_of_exponent_le (by norm_num)
  have h140 : (0 : ℝ) ≤ DB_RANGE := by unfold DB_RANGE DB_MAX DB_MIN; norm_num
  have := clamp01_mono hab
  have hmul : clamp01 a * DB_RANGE ≤ clamp01 b * DB_RANGE :=
    mul_le_mul_of_nonneg_right this h140
  linarith

theorem denormalise_magnitude_le_max (v : ℝ) :
    denormalise_magnitude v ≤ MAX_AMPLITUDE := by
  have h := denormalise_magnitude_mono (clamp01_le_one v)
  calc denormalise_magnitude v
      = denormalise_magnitude (clamp01 v) := by
        unfold denormalise_magnitude; rw [clamp01_idem]
    _ ≤ denormalise_magnitude 1 := denormalise_magnitude_mono (clamp01_le_one v)
    _ = 10 := denormalise_magnitude_one
    _ = MAX_AMPLITUDE := MAX_AMPLITUDE_eq.symm

end MagnitudeLemmas

section FrequencyLemmas

theorem LOG_FREQ_RANGE_pos : 0 < LOG_FREQ_RANGE := by
  unfold LOG_FREQ_RANGE LOG_FREQ_MIN MAX_FREQ MIN_FREQ
  have := Real.logb_lt_logb (b := 2) (by norm_num) (x := 20) (y := 20000)
    (by norm_num) (by norm_num)
  linarith

theorem denormalise_frequency_zero : denormalise_frequency 0 = 20 := by
  unfold denormalise_frequency LOG_FREQ_MIN MIN_FREQ
  rw [clamp01_zero]
  rw [show Real.logb 2 20 + 0 * LOG_FREQ_RANGE = Real.logb 2 20 by ring]
  rw [Real.rpow_logb (by norm_num) (by norm_num) (by norm_num)]

theorem denormalise_frequency_one : denormalise_frequency 1 = 20000 := by
  unfold denormalise_frequency LOG_FREQ_RANGE LOG_FREQ_MIN MAX_FREQ MIN_FREQ
  rw [clamp01_one]
  rw [show Real.logb 2 20 + 1 * (Real.logb 2 20000 - Real.logb 2 20)
      = Real.logb 2 20000 by ring]
  rw [Real.rpow_logb (by norm_num) (by norm_num) (by norm_num)]

theorem denormalise_frequency_strictMonoOn :
    StrictMonoOn denormalise_frequency (Set.Icc (0 : ℝ) 1) := by
  intro a ha b hb hab
  unfold denormalise_frequency
  apply Real.rpow_lt_rpow_of_exponent_lt (by norm_num)
  rw [clamp01_of_mem ha, clamp01_of_mem hb]
  have := LOG_FREQ_RANGE_pos
  nlinarith

theorem denormalise_frequency_log_linear (v : ℝ) (hv : v ∈ Set.Icc (0 : ℝ) 1) :
    Real.logb 2 (denormalise_frequency v) = LOG_FREQ_MIN + v * LOG_FREQ_RANGE := by
  unfold denormalise_frequency
  rw [clamp01_of_mem hv]
  rw [Real.rpow_def_of_pos (by norm_num)]
  rw [Real.logb, Real.log_exp]
  field_simp

end FrequencyLemmas

section CosineLemmas

theorem decode_cosine_eq (e : ℝ) :
    decode_cosine_component e = 2 * clamp01 e - 1 := by
  unfold decode_cosine_component PHASE_OFFSET PHASE_SCALE
  ring

theorem decode_cosine_half : decode_cosine_component 0.5 = 0 := by
  rw [decode_cosine_eq, clamp01_of_mem (by norm_num)]
  norm_num

theorem decode_cosine_one : decode_cosine_component 1 = 1 := by
  rw [decode_cosine_eq, clamp01_one]
  norm_num

theorem decode_cosine_zero : decode_cosine_component 0 = -1 := by
  rw [decode_cosine_eq, clamp01_zero]
  norm_num

theorem decode_cosine_mem (e : ℝ) :
    decode_cosine_component e ∈ Set.Icc (-1 : ℝ) 1 := by
  rw [decode_cosine_eq]
  have h := clamp01_mem e
  exact ⟨by linarith [h.1], by linarith [h.2]⟩

end CosineLemmas

/-- `colorsys.hsv_to_rgb(h, s, v)` from the Python standard library, the
conversion invoked by `map_to_preview_rgb`.  `int(h*6.0)` is truncation
toward zero (`pyTrunc`) and `i % 6` is Python integer modulo, which agrees
with `Int.emod` for the positive modulus `6`. -/
noncomputable def hsv_to_rgb (h s v : ℝ) : ℝ × ℝ × ℝ :=
  if s = 0 then (v, v, v)
  else
    let i : ℤ := pyTrunc (h * 6)
    let f : ℝ := h * 6 - i
    let p : ℝ := v * (1 - s)
    let q : ℝ := v * (1 - s * f)
    let t : ℝ := v * (1 - s * (1 - f))
    let j : ℤ := i % 6
    if j = 0 then (v, t, p)
    else if j = 1 then (q, v, p)
    else if j = 2 then (p, v, t)
    else if j = 3 then (p, q, v)
    else if j = 4 then (t, p, v)
    else (v, p, q)

/-- The local `amplitude_ratio = min(max(magnitude / MAX_AMPLITUDE, 0.0), 1.0)`
of `map_to_preview_rgb`. -/
noncomputable def amplitude_ratio (magnitude_norm : ℝ) : ℝ :=
  clamp01 (denormalise_magnitude magnitude_norm / MAX_AMPLITUDE)

/-- The locals `hue_degrees = (1.0 - frequency_norm) * 280.0 + 20.0` and
`hue = (hue_degrees % 360.0) / 360.0` of `map_to_preview_rgb`.  Note the
raw `frequency_norm` is used, not a clamped copy. -/
noncomputable def hue (frequency_norm : ℝ) : ℝ :=
  pyFmod ((1 - frequency_norm) * 280 + 20) 360 / 360

/-- The local `saturation = min(max(0.25 + amplitude_ratio * 0.6, 0.0), 1.0)`
of `map_to_preview_rgb`. -/
noncomputable def saturation (magnitude_norm : ℝ) : ℝ :=
  clamp01 (0.25 + amplitude_ratio magnitude_norm * 0.6)

/-- The local `phase_weight = 0.55 + 0.45 * cos_phase` of
`map_to_preview_rgb`. -/
noncomputable def phase_weight (phase_cos_norm : ℝ) : ℝ :=
  0.55 + 0.45 * decode_cosine_component phase_cos_norm

/-- The local `value = min(max(math.sqrt(amplitude_ratio) * phase_weight,
0.0), 1.0)` of `map_to_preview_rgb`. -/
noncomputable def value (magnitude_norm phase_cos_norm : ℝ) : ℝ :=
  clamp01 (Real.sqrt (amplitude_ratio magnitude_norm) * phase_weight phase_cos_norm)

/-- `map_to_preview_rgb(magnitude_norm, frequency_norm, phase_cos_norm)`:
HSV colour built from the locals above, converted to RGB and clamped
channel-wise (the final `tuple(min(max(colour, 0.0), 1.0) ...)`).
The unused `_ = denormalise_frequency(frequency_norm)` has no effect. -/
noncomputable def map_to_preview_rgb
    (magnitude_norm frequency_norm phase_cos_norm : ℝ) : ℝ × ℝ × ℝ :=
  let rgb := hsv_to_rgb (hue frequency_norm) (saturation magnitude_norm)
      (value magnitude_norm phase_cos_norm)
  (clamp01 rgb.1, clamp01 rgb.2.1, clamp01 rgb.2.2)

section IntermediateLemmas

theorem amplitude_ratio_raw_mem (m : ℝ) :
    denormalise_magnitude m / MAX_AMPLITUDE ∈ Set.Icc (0 : ℝ) 1 := by
  constructor
  · apply div_nonneg (denormalise_magnitude_pos m).le
    rw [MAX_AMPLITUDE_eq]; norm_num
  · rw [div_le_one (by rw [MAX_AMPLITUDE_eq]; norm_num)]
    exact denormalise_magnitude_le_max m

theorem amplitude_ratio_eq_raw (m : ℝ) :
    amplitude_ratio m = denormalise_magnitude m / MAX_AMPLITUDE := by
  unfold amplitude_ratio
  exact clamp01_of_mem (amplitude_ratio_raw_mem m)

theorem amplitude_ratio_mem (m : ℝ) : amplitude_ratio m ∈ Set.Icc (0 : ℝ) 1 :=
  clamp01_mem _

theorem saturation_raw_mem (m : ℝ) :
    0.25 + amplitude_ratio m * 0.6 ∈ Set.Icc (0.25 : ℝ) 0.85 := by
  have h := amplitude_ratio_mem m
  constructor <;> [nlinarith [h.1]; nlinarith [h.2]]

theorem saturation_eq_raw (m : ℝ) :
    saturation m = 0.25 + amplitude_ratio m * 0.6 := by
  unfold saturation
  have h := saturation_raw_mem m
  exact clamp01_of_mem ⟨by linarith [h.1], by linarith [h.2]⟩

theorem saturation_mem (m : ℝ) : saturation m ∈ Set.Icc (0.25 : ℝ) 0.85 := by
  rw [saturation_eq_raw]; exact saturation_raw_mem m

theorem phase_weight_mem (p : ℝ) : phase_weight p ∈ Set.Icc (0.1 : ℝ) 1 := by
  unfold phase_weight
  have h := decode_cosine_mem p
  constructor <;> [nlinarith [h.1]; nlinarith [h.2]]

theorem value_raw_mem (m p : ℝ) :
    Real.sqrt (amplitude_ratio m) * phase_weight p ∈ Set.Icc (0 : ℝ) 1 := by
  have hs := Real.sqrt_nonneg (amplitude_ratio m)
  have hs1 : Real.sqrt (amplitude_ratio m) ≤ 1 := by
    rw [show (1 : ℝ) = Real.sqrt 1 by rw [Real.sqrt_one]]
    exact Real.sqrt_le_sqrt (amplitude_ratio_mem m).2
  have hw := phase_weight_mem p
  constructor
  · exact mul_nonneg hs (by linarith [hw.1])
  · calc Real.sqrt (amplitude_ratio m) * phase_weight p
        ≤ 1 * 1 := by
          apply mul_le_mul hs1 hw.2 (by linarith [hw.1]) (by norm_num)
    _ = 1 := by norm_num

theorem value_eq_raw (m p : ℝ) :
    value m p = Real.sqrt (amplitude_ratio m) * phase_weight p := by
  unfold value
  exact clamp01_of_mem (value_raw_mem m p)

end IntermediateLemmas

section EvalLemmas

theorem clamp01_three_halves : clamp01 (3 / 2) = 1 := by
  rw [clamp01, max_eq_left (by norm_num), min_eq_right (by norm_num)]

theorem amplitude_ratio_one : amplitude_ratio 1 = 1 := by
  unfold amplitude_ratio
  rw [denormalise_magnitude_one, MAX_AMPLITUDE_eq,
    show (10 : ℝ) / 10 = 1 by norm_num, clamp01_one]

theorem saturation_one : saturation 1 = 17 / 20 := by
  unfold saturation
  rw [amplitude_ratio_one, show (0.25 : ℝ) + 1 * 0.6 = 17 / 20 by norm_num]
  exact clamp01_of_mem (by norm_num)

theorem phase_weight_one : phase_weight 1 = 1 := by
  unfold phase_weight
  rw [decode_cosine_one]
  norm_num

theorem value_one_one : value 1 1 = 1 := by
  unfold value
  rw [amplitude_ratio_one, phase_weight_one, Real.sqrt_one, mul_one, clamp01_one]

theorem hue_three_halves : hue (3 / 2) = 2 / 3 := by
  unfold hue pyFmod
  rw [show ((1 : ℝ) - 3 / 2) * 280 + 20 = -120 by norm_num]
  rw [show ⌊(-120 : ℝ) / 360⌋ = -1 by rw [Int.floor_eq_iff]; norm_num]
  norm_num

theorem hue_one : hue 1 = 1 / 18 := by
  unfold hue pyFmod
  rw [show ((1 : ℝ) - 1) * 280 + 20 = 20 by norm_num]
  rw [show ⌊(20 : ℝ) / 360⌋ = 0 by rw [Int.floor_eq_iff]; norm_num]
  norm_num

end EvalLemmas

section HsvEvalLemmas

theorem pyTrunc_four : pyTrunc ((2 / 3 : ℝ) * 6) = 4 := by
  unfold pyTrunc
  rw [if_pos (by norm_num)]
  rw [show (2 / 3 : ℝ) * 6 = 4 by norm_num]
  rw [show ⌊(4 : ℝ)⌋ = 4 by rw [Int.floor_eq_iff]; norm_num]

theorem pyTrunc_third : pyTrunc ((1 / 18 : ℝ) * 6) = 0 := by
  unfold pyTrunc
  rw [if_pos (by norm_num)]
  rw [show (1 / 18 : ℝ) * 6 = 1 / 3 by norm_num]
  rw [show ⌊(1 / 3 : ℝ)⌋ = 0 by rw [Int.floor_eq_iff]; norm_num]

theorem hsv_eval_high : hsv_to_rgb (2 / 3) (17 / 20) 1 = (3 / 20, 3 / 20, 1) := by
  unfold hsv_to_rgb
  rw [if_neg (show (17 / 20 : ℝ) ≠ 0 by norm_num)]
  rw [pyTrunc_four]
  norm_num

theorem hsv_eval_low : hsv_to_rgb (1 / 18) (17 / 20) 1 = (1, 13 / 30, 3 / 20) := by
  unfold hsv_to_rgb
  rw [if_neg (show (17 / 20 : ℝ) ≠ 0 by norm_num)]
  rw [pyTrunc_third]
  norm_num

theorem map_eval_unclamped :
    map_to_preview_rgb 1 (3 / 2) 1 = (3 / 20, 3 / 20, 1) := by
  unfold map_to_preview_rgb
  rw [hue_three_halves, saturation_one, value_one_one, hsv_eval_high]
  have h1 : clamp01 (3 / 20) = 3 / 20 := clamp01_of_mem (by norm_num)
  simp only [h1, clamp01_one]

theorem map_eval_clamped :
    map_to_preview_rgb 1 1 1 = (1, 13 / 30, 3 / 20) := by
  unfold map_to_preview_rgb
  rw [hue_one, saturation_one, value_one_one, hsv_eval_low]
  have h1 : clamp01 (3 / 20) = 3 / 20 := clamp01_of_mem (by norm_num)
  have h2 : clamp01 (13 / 30) = 13 / 30 := clamp01_of_mem (by norm_num)
  simp only [h1, h2, clamp01_one]

end HsvEvalLemmas

/-- `generate_lut(size)`: the triply nested loop `for b: for g: for r:`
appending `map_to_preview_rgb(r/(size-1), g/(size-1), b/(size-1))`.
The grid divisions `b / (size - 1)` use Python float division, which
raises `ZeroDivisionError` when `size == 1`; hence the `Option`. -/
noncomputable def generate_lut (size : ℕ) : Option (List (ℝ × ℝ × ℝ)) := do
  let outer ← (List.range size).mapM (fun (b : ℕ) => do
    let phase_cos_norm ← pyDiv ((b : ℕ) : ℝ) ((size : ℝ) - 1)
    let middle ← (List.range size).mapM (fun (g : ℕ) => do
      let frequency_norm ← pyDiv ((g : ℕ) : ℝ) ((size : ℝ) - 1)
      (List.range size).mapM (fun (r : ℕ) => do
        let magnitude_norm ← pyDiv ((r : ℕ) : ℝ) ((size : ℝ) - 1)
        pure (map_to_preview_rgb magnitude_norm frequency_norm phase_cos_norm)))
    pure middle.flatten)
  pure outer.flatten

/-- The sample `generate_lut` computes at grid coordinate `(r, g, b)`. -/
noncomputable def lutSample (size r g b : ℕ) : ℝ × ℝ × ℝ :=
  map_to_preview_rgb ((r : ℝ) / ((size : ℝ) - 1)) ((g : ℝ) / ((size : ℝ) - 1))
    ((b : ℝ) / ((size : ℝ) - 1))

section GenerateLutLemmas

theorem option_bind_some {α β : Type} (a : α) (f : α → Option β) :
    (do let x ← some a; f x) = f a := rfl

theorem mapM_of_forall_some {α β : Type} (F : α → Option β) (f : α → β) :
    ∀ l : List α, (∀ a ∈ l, F a = some (f a)) → l.mapM F = some (l.map f) := by
  intro l
  induction l with
  | nil => intro _; rfl
  | cons a t ih =>
    intro h
    rw [List.mapM_cons, h a (by simp), ih (fun x hx => h x (by simp [hx]))]
    rfl

theorem size_cast_sub_ne {size : ℕ} (h : size ≠ 1) : ((size : ℝ) - 1) ≠ 0 := by
  intro hc
  have h1 : (size : ℝ) = 1 := by linarith
  exact h (Nat.cast_eq_one.mp h1)

theorem pyDiv_of_ne {a b : ℝ} (h : b ≠ 0) : pyDiv a b = some (a / b) := by
  unfold pyDiv
  rw [if_neg h]

theorem generate_lut_eq_some {size : ℕ} (h : size ≠ 1) :
    generate_lut size =
      some ((List.range size).flatMap (fun b => (List.range size).flatMap
        (fun g => (List.range size).map (fun r => lutSample size r g b)))) := by
  have hne := size_cast_sub_ne h
  unfold generate_lut
  have hinner : ∀ fn pn : ℝ, (List.range size).mapM (fun (r : ℕ) => do
      let magnitude_norm ← pyDiv ((r : ℕ) : ℝ) ((size : ℝ) - 1)
      pure (map_to_preview_rgb magnitude_norm fn pn)) =
      some ((List.range size).map
        (fun (r : ℕ) => map_to_preview_rgb ((r : ℝ) / ((size : ℝ) - 1)) fn pn)) := by
    intro fn pn
    apply mapM_of_forall_some
    intro r _
    rw [pyDiv_of_ne hne, option_bind_some]
    rfl
  have hmiddle : ∀ pn : ℝ, (List.range size).mapM (fun (g : ℕ) => do
      let frequency_norm ← pyDiv ((g : ℕ) : ℝ) ((size : ℝ) - 1)
      (List.range size).mapM (fun (r : ℕ) => do
        let magnitude_norm ← pyDiv ((r : ℕ) : ℝ) ((size : ℝ) - 1)
        pure (map_to_preview_rgb magnitude_norm frequency_norm pn))) =
      some ((List.range size).map (fun (g : ℕ) => (List.range size).map
        (fun (r : ℕ) => map_to_preview_rgb ((r : ℝ) / ((size : ℝ) - 1))
          ((g : ℝ) / ((size : ℝ) - 1)) pn))) := by
    intro pn
    apply mapM_of_forall_some
    intro g _
    rw [pyDiv_of_ne hne, option_bind_some, hinner]
  have houter : (List.range size).mapM (fun (b : ℕ) => do
      let phase_cos_norm ← pyDiv ((b : ℕ) : ℝ) ((size : ℝ) - 1)
      let middle ← (List.range size).mapM (fun (g : ℕ) => do
        let frequency_norm ← pyDiv ((g : ℕ) : ℝ) ((size : ℝ) - 1)
        (List.range size).mapM (fun (r : ℕ) => do
          let magnitude_norm ← pyDiv ((r : ℕ) : ℝ) ((size : ℝ) - 1)
          pure (map_to_preview_rgb magnitude_norm frequency_norm phase_cos_norm)))
      pure middle.flatten) =
      some ((List.range size).map (fun (b : ℕ) => ((List.range size).map
        (fun (g : ℕ) => (List.range size).map
          (fun (r : ℕ) => lutSample size r g b))).flatten)) := by
    apply mapM_of_forall_some
    intro b _
    rw [pyDiv_of_ne hne, option_bind_some, hmiddle, option_bind_some]
    rfl
  rw [houter, option_bind_some]
  rfl

end GenerateLutLemmas

section ReindexLemmas

theorem range_mul_flatMap {α : Type} (n : ℕ) (h : ℕ → α) :
    ∀ m : ℕ, (List.range (m * n)).map h =
      (List.range m).flatMap (fun j => (List.range n).map (fun i => h (j * n + i))) := by
  intro m
  induction m with
  | zero => simp
  | succ k ih =>
    rw [Nat.succ_mul, List.range_add, List.map_append, List.map_map, ih,
      List.range_succ, List.flatMap_append]
    congr 1
    simp [Function.comp]

theorem flatMap_congr {α β : Type} (l : List α) (f g : α → List β)
    (h : ∀ a ∈ l, f a = g a) : l.flatMap f = l.flatMap g := by
  rw [List.flatMap_def, List.flatMap_def, List.map_congr_left h]

theorem lut_list_reindex (size : ℕ) :
    (List.range size).flatMap (fun b => (List.range size).flatMap
        (fun g => (List.range size).map (fun r => lutSample size r g b))) =
      (List.range (size ^ 3)).map
        (fun i => lutSample size (i % size) (i / size % size) (i / size ^ 2)) := by
  rw [show size ^ 3 = size * (size * size) by ring, range_mul_flatMap]
  apply flatMap_congr
  intro b hb
  have hbs : b < size := List.mem_range.mp hb
  have hsize : 0 < size := Nat.pos_of_ne_zero (by omega)
  rw [range_mul_flatMap]
  apply flatMap_congr
  intro g hg
  have hgs : g < size := List.mem_range.mp hg
  apply List.map_congr_left
  intro r hr
  have hrs : r < size := List.mem_range.mp hr
  have hmod : (b * (size * size) + (g * size + r)) % size = r := by
    rw [show b * (size * size) + (g * size + r) = r + size * (b * size + g) by ring,
      Nat.add_mul_mod_self_left, Nat.mod_eq_of_lt hrs]
  have hdiv : (b * (size * size) + (g * size + r)) / size = b * size + g := by
    rw [show b * (size * size) + (g * size + r) = r + size * (b * size + g) by ring,
      Nat.add_mul_div_left _ _ hsize, Nat.div_eq_of_lt hrs, Nat.zero_add]
  have hdivmod : (b * (size * size) + (g * size + r)) / size % size = g := by
    rw [hdiv, show b * size + g = g + size * b by ring, Nat.add_mul_mod_self_left,
      Nat.mod_eq_of_lt hgs]
  have hdiv2 : (b * (size * size) + (g * size + r)) / size ^ 2 = b := by
    rw [show size ^ 2 = size * size by ring,
      Nat.div_div_eq_div_mul _ size size |>.symm, hdiv,
      show b * size + g = g + size * b by ring, Nat.add_mul_div_left _ _ hsize,
      Nat.div_eq_of_lt hgs, Nat.zero_add]
  rw [hmod, hdivmod, hdiv2]

end ReindexLemmas

section SmallSizeLemmas

theorem generate_lut_zero : generate_lut 0 = some [] := rfl

theorem generate_lut_one : generate_lut 1 = none := by
  unfold generate_lut
  rw [show List.range 1 = [0] from rfl, List.mapM_cons]
  have hdiv : pyDiv ((0 : ℕ) : ℝ) (((1 : ℕ) : ℝ) - 1) = none := by
    unfold pyDiv
    rw [if_pos (by norm_num)]
  rw [hdiv]
  rfl

theorem getD_range_map {α : Type} (n : ℕ) (F : ℕ → α) (i : ℕ) (d : α)
    (hi : i < n) : ((List.range n).map F).getD i d = F i := by
  have hlen : i < ((List.range n).map F).length := by
    rw [List.length_map, List.length_range]; exact hi
  rw [List.getD_eq_getElem _ _ hlen, List.getElem_map, List.getElem_range]

end SmallSizeLemmas

/-- Zero-pad a digit string on the left to width 6, for the fractional
part of `%.6f` formatting. -/
def padLeftZeros (s : String) : String :=
  String.mk (List.replicate (6 - s.length) '0') ++ s

/-- Python `f"{x:.6f}"` fixed-point formatting, modelled over the exact
real: round `x * 10^6` to the nearest integer and print six fractional
digits.  (CPython rounds the underlying binary float half-to-even; over
exact reals we use `round`, which differs only on exact half-ulp ties.) -/
noncomputable def fmt6 (x : ℝ) : String :=
  let n : ℤ := round (x * 1000000)
  let sgn : String := if n < 0 then "-" else ""
  let m : ℕ := n.natAbs
  sgn ++ toString (m / 1000000) ++ "." ++ padLeftZeros (toString (m % 1000000))

/-- The data line `f"{r:.6f} {g:.6f} {b:.6f}"` written for one sample. -/
noncomputable def fmtSampleLine (s : ℝ × ℝ × ℝ) : String :=
  fmt6 s.1 ++ " " ++ fmt6 s.2.1 ++ " " ++ fmt6 s.2.2

/-- `write_cube_file(path, size)`: the sequence of lines written to the
stream (each `stream.write` call ends in `"\n"`, so the file content is
exactly these lines).  `generate_lut` is called first, so its
`ZeroDivisionError` propagates before anything is written. -/
noncomputable def write_cube_file (size : ℕ) : Option (List String) := do
  let samples ← generate_lut size
  pure (["TITLE \"ReSyne Display (Magnitude/LogFreq/PhaseCos)\"",
      "LUT_3D_SIZE " ++ toString size,
      "DOMAIN_MIN 0.0 0.0 0.0",
      "DOMAIN_MAX 1.0 1.0 1.0"]
    ++ samples.map fmtSampleLine)

/-- `pathlib.Path.parent`: drop the final path component. -/
def pathParent (p : List String) : List String := p.dropLast

/-- The resolved `__file__` of the script: it lives at
`src/utilities/generate_resyne_display_lut.py` under the repository root,
whose absolute path has component list `root`. -/
def script_file (root : List String) : List String :=
  root ++ ["src", "utilities", "generate_resyne_display_lut.py"]

/-- The output path computed by `main()`:
`Path(__file__).resolve().parent.parent / "assets" / "luts" /
"ReSyne_Display_v1.cube"`. -/
def main_output_path (root : List String) : List String :=
  pathParent (pathParent (script_file root)) ++
    ["assets", "luts", "ReSyne_Display_v1.cube"]

section WriterLemmas

theorem lut_length {size : ℕ} (h : size ≠ 1) :
    ∀ l, generate_lut size = some l → l.length = size ^ 3 := by
  intro l hl
  rw [generate_lut_eq_some h, lut_list_reindex] at hl
  have := Option.some_injective _ hl
  rw [← this, List.length_map, List.length_range]

end WriterLemmas

section ClampCongruenceLemmas

theorem denormalise_magnitude_clamp (v : ℝ) :
    denormalise_magnitude (clamp01 v) = denormalise_magnitude v := by
  unfold denormalise_magnitude
  rw [clamp01_idem]

theorem decode_cosine_clamp (e : ℝ) :
    decode_cosine_component (clamp01 e) = decode_cosine_component e := by
  unfold decode_cosine_component
  rw [clamp01_idem]

theorem amplitude_ratio_clamp (m : ℝ) :
    amplitude_ratio (clamp01 m) = amplitude_ratio m := by
  unfold amplitude_ratio
  rw [denormalise_magnitude_clamp]

theorem saturation_clamp (m : ℝ) : saturation (clamp01 m) = saturation m := by
  unfold saturation
  rw [amplitude_ratio_clamp]

theorem phase_weight_clamp (p : ℝ) : phase_weight (clamp01 p) = phase_weight p := by
  unfold phase_weight
  rw [decode_cosine_clamp]

theorem value_clamp (m p : ℝ) : value (clamp01 m) (clamp01 p) = value m p := by
  unfold value
  rw [amplitude_ratio_clamp, phase_weight_clamp]

end ClampCongruenceLemmas

/-- C1: for every input triple `(magnitude_norm, frequency_norm,
phase_cos_norm)` — including values outside `[0,1]` — each of the three
channels returned by `map_to_preview_rgb` lies within `[0,1]` inclusive. -/
theorem C1_map_to_preview_rgb_channels_in_unit_interval (m f p : ℝ) :
    (map_to_preview_rgb m f p).1 ∈ Set.Icc (0 : ℝ) 1 ∧
    (map_to_preview_rgb m f p).2.1 ∈ Set.Icc (0 : ℝ) 1 ∧
    (map_to_preview_rgb m f p).2.2 ∈ Set.Icc (0 : ℝ) 1 := by
  unfold map_to_preview_rgb
  exact ⟨clamp01_mem _, clamp01_mem _, clamp01_mem _⟩

/-- C2 counterexample: the claim quantifies over every size, but
`generate_lut(1)` raises `ZeroDivisionError` (the grid coordinate divides
by `size - 1 = 0`) instead of returning `1^3 = 1` sample. -/
theorem C2_counterexample_size_one : generate_lut 1 = none := generate_lut_one

/-- C2 (amended to every size except 1): `generate_lut(size)` returns
exactly `size^3` samples, and the `i`-th sample equals
`map_to_preview_rgb(r/(size-1), g/(size-1), b/(size-1))` with
`r = i % size`, `g = (i // size) % size`, `b = i // size^2` — phase/blue
outermost, frequency/green middle, magnitude/red fastest-varying. -/
theorem C2_generate_lut_enumeration (size : ℕ) (h : size ≠ 1) :
    ∃ l, generate_lut size = some l ∧ l.length = size ^ 3 ∧
      ∀ i, i < size ^ 3 → l.getD i (0, 0, 0) =
        map_to_preview_rgb (((i % size : ℕ) : ℝ) / ((size : ℝ) - 1))
          (((i / size % size : ℕ) : ℝ) / ((size : ℝ) - 1))
          (((i / size ^ 2 : ℕ) : ℝ) / ((size : ℝ) - 1)) := by
  refine ⟨_, generate_lut_eq_some h, ?_, ?_⟩
  · rw [lut_list_reindex, List.length_map, List.length_range]
  · intro i hi
    rw [lut_list_reindex, getD_range_map _ _ _ _ hi]
    rfl

/-- C2 witness: the enumeration theorem instantiated at `size = 3`. -/
theorem C2_generate_lut_enumeration_witness :
    ∃ l, generate_lut 3 = some l ∧ l.length = 3 ^ 3 ∧
      ∀ i, i < 3 ^ 3 → l.getD i (0, 0, 0) =
        map_to_preview_rgb (((i % 3 : ℕ) : ℝ) / ((3 : ℝ) - 1))
          (((i / 3 % 3 : ℕ) : ℝ) / ((3 : ℝ) - 1))
          (((i / 3 ^ 2 : ℕ) : ℝ) / ((3 : ℝ) - 1)) := by
  have h := C2_generate_lut_enumeration 3 (by norm_num)
  simpa using h

/-- C3 counterexample: the claim quantifies over every size, but for
`size = 1` the writer calls `generate_lut(1)`, which raises
`ZeroDivisionError` before any line is written. -/
theorem C3_counterexample_size_one : write_cube_file 1 = none := by
  unfold write_cube_file
  rw [generate_lut_one]
  rfl

/-- C3 (amended to every size except 1): the file content consists of the
four header lines — title, `LUT_3D_SIZE <size>`, `DOMAIN_MIN 0.0 0.0 0.0`,
`DOMAIN_MAX 1.0 1.0 1.0` — followed by the `size^3` samples of
`generate_lut(size)` in generation order, each formatted to 6 decimal
places, space-separated. -/
theorem C3_write_cube_file_content (size : ℕ) (h : size ≠ 1) :
    ∃ samples, generate_lut size = some samples ∧ samples.length = size ^ 3 ∧
      write_cube_file size = some
        (["TITLE \"ReSyne Display (Magnitude/LogFreq/PhaseCos)\"",
          "LUT_3D_SIZE " ++ toString size,
          "DOMAIN_MIN 0.0 0.0 0.0",
          "DOMAIN_MAX 1.0 1.0 1.0"]
          ++ samples.map fmtSampleLine) ∧
      ∀ ls, write_cube_file size = some ls → ls.length = 4 + size ^ 3 := by
  obtain ⟨l, hl⟩ : ∃ l, generate_lut size = some l :=
    ⟨_, generate_lut_eq_some h⟩
  have hlen := lut_length h l hl
  refine ⟨l, hl, hlen, ?_, ?_⟩
  · unfold write_cube_file
    rw [hl, option_bind_some]
    rfl
  · intro ls hls
    unfold write_cube_file at hls
    rw [hl, option_bind_some] at hls
    have := Option.some_injective _ hls
    rw [← this, List.length_append, List.length_map, hlen]
    rfl

/-- C3 witness: the writer content theorem instantiated at `size = 3`
(27 data lines after the four headers). -/
theorem C3_write_cube_file_content_witness :
    ∃ samples, generate_lut 3 = some samples ∧ samples.length = 3 ^ 3 ∧
      write_cube_file 3 = some
        (["TITLE \"ReSyne Display (Magnitude/LogFreq/PhaseCos)\"",
          "LUT_3D_SIZE " ++ toString (3 : ℕ),
          "DOMAIN_MIN 0.0 0.0 0.0",
          "DOMAIN_MAX 1.0 1.0 1.0"]
          ++ samples.map fmtSampleLine) ∧
      ∀ ls, write_cube_file 3 = some ls → ls.length = 4 + 3 ^ 3 :=
  C3_write_cube_file_content 3 (by norm_num)

/-- C4 counterexample: `frequency_norm` feeds the hue computation
unclamped, so at `(1, 1.5, 1)` the colour differs from the one at the
clamped triple `(1, 1, 1)` (first channel `0.15` versus `1`). -/
theorem C4_counterexample_frequency_unclamped :
    map_to_preview_rgb 1 (3 / 2) 1 ≠
      map_to_preview_rgb (clamp01 1) (clamp01 (3 / 2)) (clamp01 1) := by
  rw [clamp01_one, clamp01_three_halves, map_eval_unclamped, map_eval_clamped]
  intro hc
  have h1 := congrArg Prod.fst hc
  norm_num at h1

/-- C4 (amended): the magnitude and phase inputs are clamped into `[0,1]`
before use — `map_to_preview_rgb(m, f, p) =
map_to_preview_rgb(clamp(m), f, clamp(p))` — but `frequency_norm` enters
the hue formula unclamped, so out-of-range frequency values do not degrade
to the boundary behaviour. -/
theorem C4_map_clamps_magnitude_and_phase (m f p : ℝ) :
    map_to_preview_rgb m f p = map_to_preview_rgb (clamp01 m) f (clamp01 p) := by
  unfold map_to_preview_rgb
  rw [saturation_clamp, value_clamp]

/-- C5: `denormalise_magnitude` is monotonic non-decreasing, with
`denormalise_magnitude(0) = 10^(-120/20)` and
`denormalise_magnitude(1) = 10^(20/20) = 10`. -/
theorem C5_denormalise_magnitude_spec :
    Monotone denormalise_magnitude ∧
    denormalise_magnitude 0 = (10 : ℝ) ^ ((-120 : ℝ) / 20) ∧
    denormalise_magnitude 1 = 10 :=
  ⟨denormalise_magnitude_mono, denormalise_magnitude_zero,
    denormalise_magnitude_one⟩

/-- C5 witness: monotonicity applied at the concrete pair `0 ≤ 1/2`. -/
theorem C5_denormalise_magnitude_spec_witness :
    denormalise_magnitude 0 ≤ denormalise_magnitude (1 / 2) ∧
    denormalise_magnitude 1 = 10 :=
  ⟨C5_denormalise_magnitude_spec.1 (by norm_num),
    C5_denormalise_magnitude_spec.2.2⟩

/-- C6: `denormalise_frequency(0) = 20`, `denormalise_frequency(1) =
20000`, the map is strictly increasing on `[0,1]`, and it is log-linear:
`log2(denormalise_frequency(v)) = LOG_FREQ_MIN + v * LOG_FREQ_RANGE` for
`v ∈ [0,1]`. -/
theorem C6_denormalise_frequency_spec :
    denormalise_frequency 0 = 20 ∧ denormalise_frequency 1 = 20000 ∧
    StrictMonoOn denormalise_frequency (Set.Icc (0 : ℝ) 1) ∧
    ∀ v ∈ Set.Icc (0 : ℝ) 1,
      Real.logb 2 (denormalise_frequency v) = LOG_FREQ_MIN + v * LOG_FREQ_RANGE :=
  ⟨denormalise_frequency_zero, denormalise_frequency_one,
    denormalise_frequency_strictMonoOn, denormalise_frequency_log_linear⟩

/-- C6 witness: strict monotonicity at `1/4 < 3/4` and log-linearity at
`v = 1/2`. -/
theorem C6_denormalise_frequency_spec_witness :
    denormalise_frequency (1 / 4) < denormalise_frequency (3 / 4) ∧
    Real.logb 2 (denormalise_frequency (1 / 2)) =
      LOG_FREQ_MIN + 1 / 2 * LOG_FREQ_RANGE :=
  ⟨C6_denormalise_frequency_spec.2.2.1 ⟨by norm_num, by norm_num⟩
      ⟨by norm_num, by norm_num⟩ (by norm_num),
    C6_denormalise_frequency_spec.2.2.2 (1 / 2) ⟨by norm_num, by norm_num⟩⟩

/-- C7: `decode_cosine_component` inverts the affine encoding:
`0.5 ↦ 0`, `1 ↦ 1`, `0 ↦ -1`, and every output lies in `[-1, 1]`. -/
theorem C7_decode_cosine_spec :
    decode_cosine_component 0.5 = 0 ∧ decode_cosine_component 1 = 1 ∧
    decode_cosine_component 0 = -1 ∧
    ∀ e : ℝ, decode_cosine_component e ∈ Set.Icc (-1 : ℝ) 1 :=
  ⟨decode_cosine_half, decode_cosine_one, decode_cosine_zero,
    decode_cosine_mem⟩

/-- C8 counterexample: the grandparent of the script file
`<root>/src/utilities/generate_resyne_display_lut.py` is `<root>/src`, so
the output path is not `<project_root>/assets/luts/ReSyne_Display_v1.cube`. -/
theorem C8_counterexample_not_project_root :
    main_output_path [] ≠ ["assets", "luts", "ReSyne_Display_v1.cube"] := by
  decide

/-- C8 (amended): the entry point writes the LUT to
`<project_root>/src/assets/luts/ReSyne_Display_v1.cube` — anchored at the
`src` directory containing the script's parent directory, not at the
project root. -/
theorem C8_main_output_path_eq (root : List String) :
    main_output_path root =
      root ++ ["src", "assets", "luts", "ReSyne_Display_v1.cube"] := by
  unfold main_output_path script_file pathParent
  rw [show root ++ ["src", "utilities", "generate_resyne_display_lut.py"]
      = (root ++ ["src", "utilities"]) ++ ["generate_resyne_display_lut.py"] by
        simp,
    List.dropLast_concat,
    show root ++ ["src", "utilities"] = (root ++ ["src"]) ++ ["utilities"] by
      simp,
    List.dropLast_concat]
  simp

/-- C9: `generate_lut(0)` returns the empty list, `generate_lut(1)` fails
with a division-by-zero error before producing any sample, and for every
`size ≥ 2` the enumeration completes without any error. -/
theorem C9_generate_lut_totality :
    generate_lut 0 = some [] ∧ generate_lut 1 = none ∧
    ∀ size : ℕ, 2 ≤ size → ∃ l, generate_lut size = some l :=
  ⟨generate_lut_zero, generate_lut_one,
    fun _ hs => ⟨_, generate_lut_eq_some (by omega)⟩⟩

/-- C9 witness: success at the concrete size `2`. -/
theorem C9_generate_lut_totality_witness :
    generate_lut 1 = none ∧ ∃ l, generate_lut 2 = some l :=
  ⟨C9_generate_lut_totality.2.1, C9_generate_lut_totality.2.2 2 (by norm_num)⟩

/-- C10: the intermediate HSV components of `map_to_preview_rgb` stay in
ranges tighter than their clamps for every input: the raw amplitude ratio
is already in `[0,1]`, saturation lies in `[0.25, 0.85]`, value lies in
`[0,1]`, and the clamps on all three never change their arguments, so
every sample has saturation at least `0.25`. -/
theorem C10_intermediate_ranges (m p : ℝ) :
    denormalise_magnitude m / MAX_AMPLITUDE ∈ Set.Icc (0 : ℝ) 1 ∧
    amplitude_ratio m = denormalise_magnitude m / MAX_AMPLITUDE ∧
    saturation m ∈ Set.Icc (0.25 : ℝ) 0.85 ∧
    saturation m = 0.25 + amplitude_ratio m * 0.6 ∧
    value m p ∈ Set.Icc (0 : ℝ) 1 ∧
    value m p = Real.sqrt (amplitude_ratio m) * phase_weight p :=
  ⟨amplitude_ratio_raw_mem m, amplitude_ratio_eq_raw m, saturation_mem m,
    saturation_eq_raw m, by rw [value_eq_raw]; exact value_raw_mem m p,
    value_eq_raw m p⟩
